import Mathlib

/-!
# Verification of the info-hub ingestion pipeline (`scripts/build.py`)

This file gives a shallow embedding, in Lean 4, of the pure core of the
repository's single script `scripts/build.py`: item normalization and
signature-based identity, rule loading and keyword filtering, TTL-based
expiry with persistent-domain exemptions, per-source health bookkeeping,
id-based deduplication, and the reconciliation of a run's candidates with
the previous rolling index.

Modelling conventions:
* Instants (`datetime`) are integers counting seconds; `timedelta(days=30)`
  becomes `30 * 86400`, `timedelta(hours=24)` becomes `24 * 3600`.
* External collaborators (the `dateutil` timestamp parser, BeautifulSoup's
  HTML-to-text conversion, `html.unescape`, `datetime.isoformat`) are taken
  as explicit function parameters: the script only composes them.
* An `Item`'s stored `published` field is the result of parsing its
  timestamp: `some t` for a parseable instant, `none` when the stored string
  cannot be parsed at classification time (the script then substitutes
  "now", which the embedding performs at the use site, exactly as
  `is_expired` does).
* Python `dict`s keyed by strings are insertion-ordered association lists;
  inserting an existing key overwrites the value in place, a new key is
  appended.  Python `set`s of keywords are kept as lists (the script only
  ever tests emptiness and runs `any` over them, for which order and
  multiplicity are irrelevant).
* Python string tests are mapped to decidable character-list relations:
  `k in text` (substring) to the infix relation on `String.data`,
  `s.endswith(t)` to the suffix relation.
-/

/-- Python's substring test `k in t`. -/
def str_contains (t k : String) : Bool :=
  decide (k.data <:+: t.data)

/-- Python's `s.endswith(suf)`. -/
def str_endswith (s suf : String) : Bool :=
  decide (suf.data <:+ s.data)

/-- Python's `a or b` on strings (with `""` falsy). -/
def pyOrStr (a b : String) : String :=
  if a = "" then b else a

/-- UTF-8 encoding of one code point, as byte values. -/
def utf8Char (c : Char) : List Nat :=
  let n := c.toNat
  if n < 128 then [n]
  else if n < 2048 then [192 + n / 64, 128 + n % 64]
  else if n < 65536 then [224 + n / 4096, 128 + (n / 64) % 64, 128 + n % 64]
  else [240 + n / 262144, 128 + (n / 4096) % 64, 128 + (n / 64) % 64, 128 + n % 64]

/-- UTF-8 encoding of a string (Python's `s.encode("utf-8")`). -/
def utf8Encode (s : String) : List Nat :=
  s.data.foldr (fun c acc => utf8Char c ++ acc) []

/-! ## SHA-1 (`hashlib.sha1`), executable over byte lists -/

/-- Rotate a 32-bit word left by `n` bits. -/
def rotl32 (n x : Nat) : Nat :=
  ((x <<< n) ||| (x >>> (32 - n))) % 4294967296

/-- Big-endian byte representation of `x` in `n` bytes. -/
def toBytesBE (n x : Nat) : List Nat :=
  (List.range n).map (fun i => (x >>> (8 * (n - 1 - i))) % 256)

/-- SHA-1 padding: `0x80`, zeros to 56 mod 64, 8-byte big-endian bit length. -/
def sha1pad (msg : List Nat) : List Nat :=
  msg ++ [128] ++ List.replicate ((55 + 64 - msg.length % 64) % 64) 0
      ++ toBytesBE 8 (msg.length * 8)

/-- Group bytes into big-endian 32-bit words. -/
def bytesToWords : List Nat → List Nat
  | a :: b :: c :: d :: rest => (((a * 256 + b) * 256 + c) * 256 + d) :: bytesToWords rest
  | _ => []

/-- Split a byte list into 64-byte blocks. -/
def chunks64 : List Nat → List (List Nat)
  | [] => []
  | a :: rest => ((a :: rest).take 64) :: chunks64 (rest.drop 63)
termination_by l => l.length
decreasing_by simp [List.length_drop]; omega

/-- SHA-1 round function. -/
def sha1f (i b c d : Nat) : Nat :=
  if i < 20 then (b &&& c) ||| ((b ^^^ 4294967295) &&& d)
  else if i < 40 then b ^^^ c ^^^ d
  else if i < 60 then (b &&& c) ||| (b &&& d) ||| (c &&& d)
  else b ^^^ c ^^^ d

/-- SHA-1 round constants. -/
def sha1k (i : Nat) : Nat :=
  if i < 20 then 1518500249
  else if i < 40 then 1859775393
  else if i < 60 then 2400959708
  else 3395469782

/-- Extend 16 message words to the 80-word schedule. -/
def sha1extend (w0 : Array Nat) : Array Nat := Id.run do
  let mut w := w0
  for i in [16:80] do
    w := w.push (rotl32 1 ((w.getD (i - 3) 0) ^^^ (w.getD (i - 8) 0)
        ^^^ (w.getD (i - 14) 0) ^^^ (w.getD (i - 16) 0)))
  return w

/-- The five 32-bit chaining words of SHA-1. -/
structure Sha1State where
  h0 : Nat
  h1 : Nat
  h2 : Nat
  h3 : Nat
  h4 : Nat

/-- Compress one 64-byte block into the chaining state. -/
def sha1Block (st : Sha1State) (block : List Nat) : Sha1State := Id.run do
  let w := sha1extend (bytesToWords block).toArray
  let mut a := st.h0
  let mut b := st.h1
  let mut c := st.h2
  let mut d := st.h3
  let mut e := st.h4
  for i in [0:80] do
    let temp := (rotl32 5 a + sha1f i b c d + e + sha1k i + w.getD i 0) % 4294967296
    e := d
    d := c
    c := rotl32 30 b
    b := a
    a := temp
  return ⟨(st.h0 + a) % 4294967296, (st.h1 + b) % 4294967296, (st.h2 + c) % 4294967296,
          (st.h3 + d) % 4294967296, (st.h4 + e) % 4294967296⟩

/-- SHA-1 initial chaining state. -/
def sha1init : Sha1State :=
  ⟨1732584193, 4023233417, 2562383102, 271733878, 3285377520⟩

/-- SHA-1 digest of a byte list, as 20 bytes. -/
def sha1digest (msg : List Nat) : List Nat :=
  let st := (chunks64 (sha1pad msg)).foldl sha1Block sha1init
  toBytesBE 4 st.h0 ++ toBytesBE 4 st.h1 ++ toBytesBE 4 st.h2
    ++ toBytesBE 4 st.h3 ++ toBytesBE 4 st.h4

/-- Two lowercase hex digits of one byte. -/
def hexOfByte (b : Nat) : String :=
  let d : Nat → Char := fun n => if n < 10 then Char.ofNat (48 + n) else Char.ofNat (87 + n)
  String.mk [d (b / 16), d (b % 16)]

/-- Python's `hashlib.sha1(bytes).hexdigest()`. -/
def sha1_hexdigest (msg : List Nat) : String :=
  String.join ((sha1digest msg).map hexOfByte)

/-! ## Data model -/

/-- A raw feed entry as handed over by `feedparser`: every field may be
absent (`getattr(e, f, "")` defaulting). -/
structure RawEntry where
  title : Option String
  link : Option String
  summary : Option String
  description : Option String
  published : Option String
  updated : Option String
deriving DecidableEq, Repr

/-- The normalized item dict produced by `normalize_entry`.  `published`
holds the parse result of the stored ISO timestamp: `none` models a stored
string that the `dateutil` parser rejects at classification time. -/
structure Item where
  id : String
  title : String
  link : String
  summary : String
  published : Option Int
  source : String
  source_domain : String
deriving DecidableEq, Repr

/-- The dict built by `load_rules` (Python sets kept as lists: the script
only tests emptiness and runs `any` over them). -/
structure Rules where
  whitelist : List String
  blacklist : List String
  persistent_domains : List String
deriving DecidableEq, Repr

/-- One per-source health record of `state/sources.json`.  Timestamps are
stored formatted (`now.isoformat()`), as in the script. -/
structure SourceRec where
  last_success : Option String
  last_error : Option String
  consecutive_failures : Nat
  disabled_until : Option String
deriving DecidableEq, Repr

/-- Constant `DEFAULT_TTL_DAYS = 30`. -/
def DEFAULT_TTL_DAYS : Int := 30

/-- Constant `FAIL_DISABLE_AFTER = 3`. -/
def FAIL_DISABLE_AFTER : Nat := 3

/-- Constant `DISABLE_DURATION = timedelta(hours=24)`, in seconds. -/
def DISABLE_DURATION : Int := 24 * 3600

/-- One day of seconds, for `timedelta(days=...)`. -/
def SECONDS_PER_DAY : Int := 86400

/-! ## Insertion-ordered string-keyed dicts (Python `dict`) -/

/-- Python dict assignment `m[k] = v`: overwrite in place if the key is
present, else append. -/
def dictInsert {β : Type} (m : List (String × β)) (k : String) (v : β) :
    List (String × β) :=
  if m.any (fun p => p.1 == k) then
    m.map (fun p => if p.1 = k then (p.1, v) else p)
  else m ++ [(k, v)]

/-- Python dict lookup `m.get(k)`. -/
def dictLookup {β : Type} (m : List (String × β)) (k : String) : Option β :=
  match m with
  | [] => none
  | (k1, v) :: rest => if k1 = k then some v else dictLookup rest k

/-! ## Translations of the script's functions -/

/-- Function `read_lines(p)`, over the file's text when it exists (`none` = missing file);
strips each line, drops blanks and `#`-comments.  A missing file yields
`[]`. -/
def read_lines (content : Option String) : List String :=
  match content with
  | none => []
  | some s =>
      ((s.splitOn "\n").map String.trim).filter
        (fun x => !(x == "") && !(x.startsWith "#"))

/-- Function `load_sources()`, over the two optional file contents. -/
def load_sources (core secondary : Option String) : List String × List String :=
  (read_lines core, read_lines secondary)

/-- Function `load_rules()`, over the three optional rule-file contents. -/
def load_rules (wl bl pd : Option String) : Rules :=
  { whitelist := read_lines wl
    blacklist := read_lines bl
    persistent_domains := read_lines pd }

/-- The host chars of `[^/]+`: everything up to the first `/`. -/
def host_part (s : String) : String :=
  String.mk (s.data.takeWhile (fun c => c != '/'))

/-- Function `domain_of(url)`: the lower-cased host of an `http(s)://` URL, `""` when
the regex `^https?://([^/]+)` does not match. -/
def domain_of (url : String) : String :=
  let u := url.trim
  let l := u.toLower
  if l.startsWith "http://" then
    let h := host_part (u.drop 7)
    if h = "" then "" else h.toLower
  else if l.startsWith "https://" then
    let h := host_part (u.drop 8)
    if h = "" then "" else h.toLower
  else ""

/-- Function `normalize_entry(src_url, e)`.  The external collaborators are explicit:
`html_to_text` (BeautifulSoup text extraction), `unescape`
(`html.unescape`), `parse_date` (`dateutil.parser.parse`, `none` on failure,
already normalized to a UTC instant), and `now` (`now_utc()`, substituted
when the raw timestamp cannot be parsed). -/
def normalize_entry (html_to_text unescape : String → String)
    (parse_date : String → Option Int) (now : Int)
    (src_url : String) (e : RawEntry) : Item :=
  let title := (e.title.getD "").trim
  let link := (e.link.getD "").trim
  let summary_html := pyOrStr (e.summary.getD "") (e.description.getD "")
  let summary_text := unescape (html_to_text summary_html)
  let pub_raw := pyOrStr (e.published.getD "") (e.updated.getD "")
  let pub :=
    match parse_date pub_raw with
    | some t => t
    | none => now
  let sdom := domain_of src_url
  let sig_src := title ++ "|" ++ link ++ "|" ++ sdom
  let sig := sha1_hexdigest (utf8Encode sig_src)
  { id := sig, title := title, link := link, summary := summary_text,
    published := some pub, source := src_url, source_domain := sdom }

/-- Function `pass_filters(item, rules)`. -/
def pass_filters (item : Item) (rules : Rules) : Bool :=
  let text := item.title ++ " " ++ item.summary
  if !rules.whitelist.isEmpty && !(rules.whitelist.any (fun k => str_contains text k)) then
    false
  else if !rules.blacklist.isEmpty && rules.blacklist.any (fun k => str_contains text k) then
    false
  else true

/-- Function `is_persistent(item, rules)`. -/
def is_persistent (item : Item) (rules : Rules) : Bool :=
  rules.persistent_domains.any
    (fun d => item.source_domain == d || str_endswith item.source_domain ("." ++ d))

/-- Function `is_expired(item, rules, now)`: persistent items never expire; otherwise
a flat 30-day TTL, with `now` substituted for an unparseable `published`. -/
def is_expired (item : Item) (rules : Rules) (now : Int) : Bool :=
  if is_persistent item rules then false
  else
    let ttl := DEFAULT_TTL_DAYS * SECONDS_PER_DAY
    let pub :=
      match item.published with
      | some t => t
      | none => now
    decide (now - pub > ttl)

/-- The health table `state`, a dict from source URL to record. -/
abbrev HState := List (String × SourceRec)

/-- Function `should_skip_by_state(state, url, now)`.  Here `parse_date` stands for
`dateutil.parser.parse` (`none` on failure, for which the script
substitutes `now`).  Python's `if disabled_until:` is falsy for `""`. -/
def should_skip_by_state (parse_date : String → Option Int)
    (state : HState) (url : String) (now : Int) : Bool × Option String :=
  match dictLookup state url with
  | none => (false, none)
  | some r =>
    match r.disabled_until with
    | none => (false, none)
    | some du_str =>
      if du_str = "" then (false, none)
      else
        let du := (parse_date du_str).getD now
        if now < du then (true, some ("disabled_until " ++ du_str))
        else (false, none)

/-- Function `update_state_on_result(state, url, ok, error_msg, now)`.  Here `fmt` stands
for `datetime.isoformat`. -/
def update_state_on_result (fmt : Int → String) (state : HState)
    (url : String) (ok : Bool) (error_msg : String) (now : Int) : HState :=
  let r0 := (dictLookup state url).getD
    { last_success := none, last_error := none
      consecutive_failures := 0, disabled_until := none }
  let r1 :=
    if ok then
      { r0 with last_success := some (fmt now), last_error := none,
                consecutive_failures := 0, disabled_until := none }
    else
      let cf := r0.consecutive_failures + 1
      { r0 with last_error := some (fmt now ++ " " ++ error_msg),
                consecutive_failures := cf,
                disabled_until :=
                  if FAIL_DISABLE_AFTER ≤ cf then some (fmt (now + DISABLE_DURATION))
                  else r0.disabled_until }
  dictInsert state url r1

/-! ## The run's dedup/merge steps (`main`, lines 262-283) -/

/-- The comprehension `uniq = {it["id"]: it for it in items}` as an insertion-ordered dict. -/
def dedupMap (items : List Item) : List (String × Item) :=
  items.foldl (fun m it => dictInsert m it.id it) []

/-- The values list `items = list(uniq.values())`. -/
def dedup_by_id (items : List Item) : List Item :=
  (dedupMap items).map (fun p => p.2)

/-- The last element of `items` bearing id `k` (spec-side helper used to
state which copy deduplication keeps). -/
def last_with_id (items : List Item) (k : String) : Option Item :=
  items.foldl (fun acc it => if it.id = k then some it else acc) none

/-- The filter `alive = [it for it in items if not is_expired(...)]`, after dedup. -/
def alive_candidates (rules : Rules) (now : Int) (candidates : List Item) :
    List Item :=
  (dedup_by_id candidates).filter (fun it => !is_expired it rules now)

/-- Descending comparison on the `published` sort key (an unparseable
timestamp sorts last, as the empty string does in the script). -/
def pub_ge (a b : Item) : Bool :=
  match a.published, b.published with
  | some x, some y => y ≤ x
  | some _, none => true
  | none, some _ => false
  | none, none => true

/-- One insertion step of the stable descending sort. -/
def insert_desc (x : Item) : List Item → List Item
  | [] => [x]
  | y :: ys => if pub_ge y x then y :: insert_desc x ys else x :: y :: ys

/-- The sort `alive.sort(key=..., reverse=True)` as a stable insertion sort. -/
def sort_by_published_desc (l : List Item) : List Item :=
  l.foldr insert_desc []

/-- The body of the carry-forward loop of `main` (lines 278-281): a previous
item is appended unless its id is already present among the accumulated
alive items or it is expired. -/
def carry_step (rules : Rules) (now : Int) (al : List Item) (p : String × Item) :
    List Item :=
  if al.any (fun i => i.id == p.1) then al
  else if !is_expired p.2 rules now then al ++ [p.2]
  else al

/-- Lines 262-283 of `main`: dedup this run's candidates, keep the
non-expired ones, carry forward every previous item whose id is not already
present and which is itself not expired, then sort by `published`
descending. -/
def reconcile (rules : Rules) (now : Int) (candidates prev : List Item) :
    List Item :=
  let alive := alive_candidates rules now candidates
  let prev_map := dedupMap prev
  sort_by_published_desc (prev_map.foldl (carry_step rules now) alive)

/-! ## Concrete fixtures for witnesses and counterexamples -/

/-- The empty rule set (all three rule files empty or missing). -/
def exRules : Rules :=
  { whitelist := [], blacklist := [], persistent_domains := [] }

/-- A rule set whose persistent-domain list holds one suffix. -/
def exRulesGov : Rules :=
  { whitelist := [], blacklist := [], persistent_domains := ["gov.uk"] }

/-- An item with "urgent"-sounding text on a non-persistent domain,
published at instant 0. -/
def exItem : Item :=
  { id := "x", title := "Bridge closure advisory", link := "l",
    summary := "suspension delay notice", published := some 0,
    source := "u", source_domain := "example.com" }

/-- An item from a subdomain of the persistent suffix `gov.uk`. -/
def exItemGov : Item :=
  { id := "y", title := "Archive entry", link := "l2", summary := "s",
    published := some 0, source := "u2", source_domain := "data.gov.uk" }

/-- A short-text item used to exercise the keyword filter. -/
def exItemHello : Item :=
  { id := "z", title := "hello", link := "l3", summary := "world",
    published := some 0, source := "u3", source_domain := "example.org" }

/-- A previous-index item used to exercise carry-forward. -/
def exPrevItem : Item :=
  { id := "p", title := "older story", link := "l4", summary := "s4",
    published := some 0, source := "u4", source_domain := "example.net" }

/-- A health record with a two-failure streak. -/
def exRec2 : SourceRec :=
  { last_success := none, last_error := none,
    consecutive_failures := 2, disabled_until := none }

/-- A health record already at the disable threshold (cooldown elapsed). -/
def exRec3 : SourceRec :=
  { last_success := none, last_error := some "0 err",
    consecutive_failures := 3, disabled_until := some "2024-01-02T00:00:00+00:00" }

/-- A health record whose `disabled_until` does not parse as a timestamp. -/
def exRecBad : SourceRec :=
  { last_success := none, last_error := none,
    consecutive_failures := 0, disabled_until := some "not-a-date" }

/-- A raw entry with a summary. -/
def exEntry1 : RawEntry :=
  { title := some "T", link := some "L", summary := some "sum one",
    description := none, published := some "2024-01-01", updated := none }

/-- The same raw entry with only the summary text changed. -/
def exEntry2 : RawEntry :=
  { title := some "T", link := some "L", summary := some "sum two",
    description := none, published := none, updated := none }

/-! ## Lemmas about the dict model -/

theorem dictLookup_none_of_any_false {β : Type} {m : List (String × β)} {k : String}
    (h : m.any (fun p => p.1 == k) = false) : dictLookup m k = none := by
  induction m with
  | nil => rfl
  | cons p rest ih =>
    simp only [List.any_cons, Bool.or_eq_false_iff, beq_eq_false_iff_ne] at h
    simp [dictLookup, h.1, ih h.2]

theorem dictLookup_append {β : Type} (m l : List (String × β)) (k : String) :
    dictLookup (m ++ l) k =
      match dictLookup m k with
      | some v => some v
      | none => dictLookup l k := by
  induction m with
  | nil => rfl
  | cons p rest ih =>
    by_cases h : p.1 = k
    · simp [dictLookup, h]
    · simp [dictLookup, h, ih]

theorem dictLookup_map_replace {β : Type} (m : List (String × β)) (k k' : String) (v : β) :
    dictLookup (m.map (fun p => if p.1 = k then (p.1, v) else p)) k' =
      if k' = k ∧ (m.any (fun p => p.1 == k) = true) then some v
      else dictLookup m k' := by
  induction m with
  | nil => simp [dictLookup]
  | cons p rest ih =>
    obtain ⟨k1, v1⟩ := p
    simp only [List.map_cons, List.any_cons]
    by_cases hk : k1 = k
    · rw [if_pos hk]
      subst hk
      by_cases hk' : k1 = k'
      · subst hk'
        simp [dictLookup]
      · have hne : ¬ k' = k1 := fun h => hk' h.symm
        simp [dictLookup, hk', hne, ih]
    · rw [if_neg hk]
      have hbeq : (k1 == k) = false := by
        simpa [beq_eq_false_iff_ne] using hk
      by_cases hk' : k1 = k'
      · subst hk'
        simp [dictLookup, hk, fun h : k1 = k ∧ _ => hk h.1]
      · simp only [hbeq, Bool.false_or]
        simp [dictLookup, hk, hk', ih]

theorem dictLookup_insert {β : Type} (m : List (String × β)) (k k' : String) (v : β) :
    dictLookup (dictInsert m k v) k' = if k' = k then some v else dictLookup m k' := by
  unfold dictInsert
  by_cases hany : m.any (fun p => p.1 == k) = true
  · rw [if_pos hany, dictLookup_map_replace]
    by_cases hk : k' = k
    · simp [hk, hany]
    · simp [hk]
  · rw [if_neg hany, dictLookup_append]
    have hfalse : m.any (fun p => p.1 == k) = false := by
      simp only [Bool.not_eq_true] at hany
      exact hany
    have hnone : dictLookup m k = none := dictLookup_none_of_any_false hfalse
    by_cases hk : k' = k
    · subst hk
      simp [hnone, dictLookup]
    · have hne : ¬ k = k' := fun h => hk h.symm
      cases hmk : dictLookup m k' <;> simp [hmk, dictLookup, hk, hne]

theorem dictLookup_insert_self {β : Type} (m : List (String × β)) (k : String) (v : β) :
    dictLookup (dictInsert m k v) k = some v := by
  simp [dictLookup_insert]

/-! ## Lemmas about deduplication -/

theorem last_with_id_foldl (items : List Item) (k : String) (acc : Option Item) :
    items.foldl (fun a it => if it.id = k then some it else a) acc =
      match last_with_id items k with
      | some v => some v
      | none => acc := by
  induction items generalizing acc with
  | nil => simp [last_with_id]
  | cons it rest ih =>
    show rest.foldl _ (if it.id = k then some it else acc) = _
    rw [ih]
    have hcons : last_with_id (it :: rest) k =
        match last_with_id rest k with
        | some v => some v
        | none => if it.id = k then some it else none := by
      show rest.foldl _ (if it.id = k then some it else none) = _
      rw [ih]
    rw [hcons]
    cases last_with_id rest k with
    | some v => rfl
    | none => by_cases h : it.id = k <;> simp [h]

theorem dedupMap_lookup_aux (items : List Item) (m : List (String × Item)) (k : String) :
    dictLookup (items.foldl (fun m it => dictInsert m it.id it) m) k =
      match last_with_id items k with
      | some v => some v
      | none => dictLookup m k := by
  induction items generalizing m with
  | nil => simp [last_with_id]
  | cons it rest ih =>
    show dictLookup (rest.foldl _ (dictInsert m it.id it)) k = _
    rw [ih, dictLookup_insert]
    have hcons : last_with_id (it :: rest) k =
        match last_with_id rest k with
        | some v => some v
        | none => if it.id = k then some it else none := by
      show rest.foldl _ (if it.id = k then some it else none) = _
      rw [last_with_id_foldl]
    rw [hcons]
    cases last_with_id rest k with
    | some v => rfl
    | none =>
      by_cases h : it.id = k
      · simp [h]
      · have h' : ¬ k = it.id := fun hh => h hh.symm
        simp [h, h']

/-- The dict built by the dedup comprehension maps every id to the LAST
item of the list bearing it. -/
theorem dedupMap_lookup (items : List Item) (k : String) :
    dictLookup (dedupMap items) k = last_with_id items k := by
  unfold dedupMap
  rw [dedupMap_lookup_aux]
  cases last_with_id items k <;> simp [dictLookup]

/-! ## Lemmas about the merge loop and the final sort -/

theorem mem_insert_desc {x y : Item} {l : List Item} :
    x ∈ insert_desc y l ↔ x = y ∨ x ∈ l := by
  induction l with
  | nil => simp [insert_desc]
  | cons z zs ih =>
    by_cases h : pub_ge z y
    · simp only [insert_desc, if_pos h, List.mem_cons, ih]
      tauto
    · simp only [insert_desc, if_neg h, List.mem_cons]

theorem mem_sort_by_published_desc {x : Item} {l : List Item} :
    x ∈ sort_by_published_desc l ↔ x ∈ l := by
  induction l with
  | nil => simp [sort_by_published_desc]
  | cons y ys ih =>
    show x ∈ insert_desc y (sort_by_published_desc ys) ↔ _
    rw [mem_insert_desc, ih]
    simp

theorem mem_carry_step {rules : Rules} {now : Int} {al : List Item}
    {p : String × Item} {x : Item} (h : x ∈ al) : x ∈ carry_step rules now al p := by
  unfold carry_step
  split_ifs <;> simp [h]

theorem mem_foldl_carry_step {rules : Rules} {now : Int}
    (pm : List (String × Item)) (al : List Item) (x : Item) (h : x ∈ al) :
    x ∈ pm.foldl (carry_step rules now) al := by
  induction pm generalizing al with
  | nil => simpa using h
  | cons p rest ih => exact ih _ (mem_carry_step h)

theorem foldl_dictInsert_fresh (items : List Item) (m : List (String × Item))
    (hfresh : ∀ it ∈ items, m.any (fun p => p.1 == it.id) = false)
    (hnd : (items.map Item.id).Nodup) :
    items.foldl (fun m it => dictInsert m it.id it) m
      = m ++ items.map (fun it => (it.id, it)) := by
  induction items generalizing m with
  | nil => simp
  | cons it rest ih =>
    have hin : dictInsert m it.id it = m ++ [(it.id, it)] := by
      unfold dictInsert
      rw [if_neg]
      simp [hfresh it (by simp)]
    simp only [List.foldl_cons, hin]
    rw [ih]
    · simp
    · intro it' hit'
      rw [List.any_append]
      have h1 : m.any (fun p => p.1 == it'.id) = false :=
        hfresh it' (List.mem_cons_of_mem _ hit')
      have h2 : it.id ≠ it'.id := by
        simp only [List.map_cons, List.nodup_cons] at hnd
        exact fun hh => hnd.1 (hh ▸ List.mem_map_of_mem Item.id hit')
      simp [h1, h2]
    · simp only [List.map_cons, List.nodup_cons] at hnd
      exact hnd.2

/-- When the previous index has pairwise-distinct ids (the rolling-index
invariant), the dict `prev_map` lists exactly its items keyed by id. -/
theorem dedupMap_of_nodup (prev : List Item) (hnd : (prev.map Item.id).Nodup) :
    dedupMap prev = prev.map (fun it => (it.id, it)) := by
  unfold dedupMap
  rw [foldl_dictInsert_fresh prev [] (fun _ _ => rfl) hnd]
  simp

theorem carry_forward_mem (rules : Rules) (now : Int) :
    ∀ (pm : List (String × Item)) (al : List Item) (pit : Item),
      (pit.id, pit) ∈ pm →
      (∀ p ∈ pm, (p : String × Item).2.id = p.1) →
      (pm.map Prod.fst).Nodup →
      (∀ x ∈ al, x.id ≠ pit.id) →
      is_expired pit rules now = false →
      pit ∈ pm.foldl (carry_step rules now) al := by
  intro pm
  induction pm with
  | nil =>
    intro al pit h
    simp at h
  | cons p rest ih =>
    intro al pit hmem hval hnd hal hexp
    simp only [List.map_cons, List.nodup_cons] at hnd
    rcases List.mem_cons.1 hmem with heq | hmem'
    · cases heq.symm
      have hany : al.any (fun i => i.id == pit.id) = false := by
        rw [List.any_eq_false]
        intro x hx
        simp [beq_eq_false_iff_ne, hal x hx]
      have hstep : carry_step rules now al (pit.id, pit) = al ++ [pit] := by
        unfold carry_step
        rw [if_neg (by simp [hany])]
        rw [if_pos (by simp [hexp])]
      rw [List.foldl_cons, hstep]
      exact mem_foldl_carry_step rest _ pit (by simp)
    · have hkey : pit.id ∈ rest.map Prod.fst := by
        have := List.mem_map_of_mem Prod.fst hmem'
        simpa using this
      have hne : p.1 ≠ pit.id := fun h => hnd.1 (h ▸ hkey)
      have hal' : ∀ x ∈ carry_step rules now al p, x.id ≠ pit.id := by
        intro x hx
        unfold carry_step at hx
        split_ifs at hx
        · exact hal x hx
        · rcases List.mem_append.1 hx with hx1 | hx2
          · exact hal x hx1
          · have : x = p.2 := by simpa using hx2
            rw [this, hval p (by simp)]
            exact hne
        · exact hal x hx
      rw [List.foldl_cons]
      exact ih _ pit hmem' (fun q hq => hval q (List.mem_cons_of_mem _ hq)) hnd.2 hal' hexp

/-- On a recorded failure the stored record is the old one with the error
stamped, the streak incremented, and `disabled_until` stamped exactly when
the new streak is at or above the threshold. -/
theorem update_state_failure (fmt : Int → String) (state : HState) (url msg : String)
    (now : Int) (r : SourceRec) (hr : dictLookup state url = some r) :
    update_state_on_result fmt state url false msg now
      = dictInsert state url
          { r with last_error := some (fmt now ++ " " ++ msg),
                   consecutive_failures := r.consecutive_failures + 1,
                   disabled_until :=
                     if FAIL_DISABLE_AFTER ≤ r.consecutive_failures + 1
                     then some (fmt (now + DISABLE_DURATION))
                     else r.disabled_until } := by
  unfold update_state_on_result
  rw [hr]
  rfl

/-! ## Claims -/

/-- C1 counterexample: the claim says deduplication keeps the first-seen
item of each id.  The dict comprehension `uniq = {it["id"]: it for it in
items}` overwrites the stored value on every repeated id, so on two
candidates sharing an id the run keeps the second one, not the first. -/
theorem C1_counterexample :
    dedup_by_id
        [{ id := "a", title := "t", link := "l", summary := "first seen",
           published := some 0, source := "u", source_domain := "d" },
         { id := "a", title := "t", link := "l", summary := "second seen",
           published := some 10, source := "u", source_domain := "d" }]
      = [{ id := "a", title := "t", link := "l", summary := "second seen",
           published := some 10, source := "u", source_domain := "d" }] := by
  rfl

/-- C1 (amended): within a run, deduplication maps each id to the LATEST
item in the candidate list bearing that id — a later observation of the
same id overwrites the earlier one. -/
theorem C1_dedup_last_seen_wins (items : List Item) (k : String) :
    dictLookup (dedupMap items) k = last_with_id items k :=
  dedupMap_lookup items k

/-- C2 counterexample: the claim asserts that urgent-keyword matches in the
title+summary select a 72-hour TTL.  `is_expired` performs no keyword
classification: this non-persistent item, all of whose text is made of the
spec's own urgent examples (closure/advisory/suspension/delay terms) and
which was published 80 hours before `now`, would be expired under the
claimed 72-hour tier, yet the code reports it alive (flat 30-day TTL). -/
theorem C2_counterexample :
    is_expired exItem exRules (80 * 3600) = false := by
  rfl

/-- C2 (amended): for every non-persistent-domain item a single default TTL
of 30 days is applied, independent of the item's title+summary text (there
is no urgent-keyword tier in the code); the item is expired iff
`now - published` strictly exceeds that TTL, with `now` substituted for an
unparseable `published` timestamp. -/
theorem C2_flat_ttl (item : Item) (rules : Rules) (now : Int) (t2 s2 : String)
    (hp : is_persistent item rules = false) :
    is_expired item rules now
        = decide (now - item.published.getD now > DEFAULT_TTL_DAYS * SECONDS_PER_DAY)
      ∧ is_expired { item with title := t2, summary := s2 } rules now
        = is_expired item rules now := by
  constructor
  · unfold is_expired
    rw [if_neg (by simp [hp])]
    cases item.published <;> rfl
  · rfl

/-- Witness for C2 (amended), at a concrete non-persistent item 40 days
old. -/
theorem C2_flat_ttl_witness :
    is_persistent exItem exRules = false
      ∧ (is_expired exItem exRules (40 * 86400)
            = decide ((40 * 86400 : Int) - exItem.published.getD (40 * 86400)
                > DEFAULT_TTL_DAYS * SECONDS_PER_DAY)
          ∧ is_expired { exItem with title := "quiet", summary := "calm" } exRules (40 * 86400)
            = is_expired exItem exRules (40 * 86400)) :=
  ⟨by rfl, C2_flat_ttl exItem exRules (40 * 86400) "quiet" "calm" (by rfl)⟩

/-- C3 counterexample: the claim says a missing rule or source-list file is
fatal at startup.  `read_lines` returns `[]` for a missing file, so
`load_rules` over three missing files silently yields the all-empty rule
set and the run proceeds. -/
theorem C3_counterexample :
    load_rules none none none
      = { whitelist := [], blacklist := [], persistent_domains := [] } := by
  rfl

/-- C3 (amended): a missing rule or source-list file is NOT fatal — it is
silently read as the empty list, so the run proceeds with empty rule sets,
under which every item passes the filter and no domain is persistent. -/
theorem C3_missing_file_empty :
    read_lines none = ([] : List String)
      ∧ load_sources none none = (([] : List String), ([] : List String))
      ∧ (∀ item : Item, pass_filters item (load_rules none none none) = true)
      ∧ (∀ item : Item, is_persistent item (load_rules none none none) = false) := by
  refine ⟨rfl, rfl, fun item => ?_, fun item => ?_⟩ <;> rfl

/-- C4: every item of the previous index whose id is not among this run's
alive candidates and which is itself not expired at `now` is carried
forward, unchanged (same record, same `published`), into the reconciled
index.  `reconcile` never consults fetch outcomes or the health table, so
an item cannot be evicted merely because its source failed or was disabled
this run. -/
theorem C4_carry_forward (rules : Rules) (now : Int) (candidates prev : List Item)
    (pit : Item) (hmem : pit ∈ prev) (hnd : (prev.map Item.id).Nodup)
    (hal : ∀ x ∈ alive_candidates rules now candidates, x.id ≠ pit.id)
    (hexp : is_expired pit rules now = false) :
    pit ∈ reconcile rules now candidates prev := by
  have hdef : reconcile rules now candidates prev
      = sort_by_published_desc ((dedupMap prev).foldl (carry_step rules now)
          (alive_candidates rules now candidates)) := rfl
  rw [hdef, mem_sort_by_published_desc, dedupMap_of_nodup prev hnd]
  apply carry_forward_mem rules now _ _ pit
  · exact List.mem_map_of_mem _ hmem
  · intro p hp
    obtain ⟨it, _, rfl⟩ := List.mem_map.1 hp
    rfl
  · simpa [List.map_map, Function.comp] using hnd
  · exact hal
  · exact hexp

/-- Witness for C4: a previous item absent from an empty candidate run is
still in the new index. -/
theorem C4_carry_forward_witness :
    exPrevItem ∈ reconcile exRules 0 [] [exPrevItem] :=
  C4_carry_forward exRules 0 [] [exPrevItem] exPrevItem (by decide) (by decide)
    (by decide) (by rfl)

/-- C5: recording a success stores `last_success = now`, clears
`last_error`, resets the streak and clears `disabled_until`; recording a
failure stores `last_error = "now msg"`, increments the streak, and when
the new streak reaches `FAIL_DISABLE_AFTER = 3` stamps
`disabled_until = now + DISABLE_DURATION` (24 h). -/
theorem C5_record_outcome (fmt : Int → String) (state : HState) (url msg : String)
    (now : Int) :
    (dictLookup (update_state_on_result fmt state url true msg now) url
        = some { last_success := some (fmt now), last_error := none,
                 consecutive_failures := 0, disabled_until := none })
    ∧ (∀ r, dictLookup state url = some r →
        ∃ r1, dictLookup (update_state_on_result fmt state url false msg now) url = some r1
          ∧ r1.last_success = r.last_success
          ∧ r1.last_error = some (fmt now ++ " " ++ msg)
          ∧ r1.consecutive_failures = r.consecutive_failures + 1
          ∧ (r.consecutive_failures + 1 = FAIL_DISABLE_AFTER →
              r1.disabled_until = some (fmt (now + DISABLE_DURATION)))) := by
  constructor
  · unfold update_state_on_result
    exact dictLookup_insert_self _ _ _
  · intro r hr
    rw [update_state_failure fmt state url msg now r hr]
    refine ⟨_, dictLookup_insert_self _ _ _, rfl, rfl, rfl, ?_⟩
    intro hthr
    simp [hthr]

/-- Witness for C5: a third consecutive failure (streak 2 before the call)
stamps the 24-hour disablement. -/
theorem C5_record_outcome_witness :
    ∃ r1, dictLookup
        (update_state_on_result (fun t => toString t)
          [("https://a.example/feed", exRec2)] "https://a.example/feed" false "boom" 5)
        "https://a.example/feed" = some r1
      ∧ r1.last_success = exRec2.last_success
      ∧ r1.last_error = some (toString (5 : Int) ++ " " ++ "boom")
      ∧ r1.consecutive_failures = exRec2.consecutive_failures + 1
      ∧ (exRec2.consecutive_failures + 1 = FAIL_DISABLE_AFTER →
          r1.disabled_until = some (toString ((5 : Int) + DISABLE_DURATION))) :=
  (C5_record_outcome (fun t => toString t) [("https://a.example/feed", exRec2)]
    "https://a.example/feed" "boom" 5).2 exRec2 (by rfl)

/-- C6: an item whose `source_domain` equals a persistent-domain entry or
is a subdomain of one (dot-boundary suffix) is never expired, whatever its
`published` instant and whatever `now` is. -/
theorem C6_persistent_never_expires (item : Item) (rules : Rules) (now : Int)
    (h : ∃ d ∈ rules.persistent_domains,
        item.source_domain = d ∨ str_endswith item.source_domain ("." ++ d) = true) :
    is_expired item rules now = false := by
  have hp : is_persistent item rules = true := by
    unfold is_persistent
    rw [List.any_eq_true]
    obtain ⟨d, hd, hor⟩ := h
    refine ⟨d, hd, ?_⟩
    rcases hor with h1 | h1 <;> simp [h1]
  simp [is_expired, hp]

/-- Witness for C6: a `data.gov.uk` item published at instant 0 is still
alive thirty years later. -/
theorem C6_persistent_never_expires_witness :
    (∃ d ∈ exRulesGov.persistent_domains,
        exItemGov.source_domain = d
          ∨ str_endswith exItemGov.source_domain ("." ++ d) = true)
      ∧ is_expired exItemGov exRulesGov 999999999 = false :=
  ⟨⟨"gov.uk", by decide, Or.inr (by decide)⟩,
   C6_persistent_never_expires exItemGov exRulesGov 999999999
     ⟨"gov.uk", by decide, Or.inr (by decide)⟩⟩

/-- C7: the filter is a pure function of (item, rules) such that an empty
whitelist imposes no whitelist restriction; a non-empty whitelist with no
matching keyword rejects; and a blacklist keyword occurring in the text
rejects even when a whitelist keyword also matches. -/
theorem C7_rule_filter :
    (∀ (item : Item) (rules : Rules), rules.whitelist = [] →
        rules.blacklist.any
          (fun k => str_contains (item.title ++ " " ++ item.summary) k) = false →
        pass_filters item rules = true)
    ∧ (∀ (item : Item) (rules : Rules), rules.whitelist ≠ [] →
        rules.whitelist.any
          (fun k => str_contains (item.title ++ " " ++ item.summary) k) = false →
        pass_filters item rules = false)
    ∧ (∀ (item : Item) (rules : Rules) (k : String), k ∈ rules.blacklist →
        str_contains (item.title ++ " " ++ item.summary) k = true →
        pass_filters item rules = false) := by
  refine ⟨?_, ?_, ?_⟩
  · intro item rules hw hbl
    unfold pass_filters
    simp [hw, hbl]
  · intro item rules hw hany
    have hie : rules.whitelist.isEmpty = false := by
      cases hwl : rules.whitelist
      · exact absurd hwl hw
      · rfl
    unfold pass_filters
    simp [hie, hany]
  · intro item rules k hk hc
    have hie : rules.blacklist.isEmpty = false := by
      cases hbl : rules.blacklist
      · rw [hbl] at hk
        cases hk
      · rfl
    have hany : rules.blacklist.any
        (fun k => str_contains (item.title ++ " " ++ item.summary) k) = true :=
      List.any_eq_true.2 ⟨k, hk, hc⟩
    simp [pass_filters, hie, hany]

/-- Witness for C7: empty whitelist admits; unmatched non-empty whitelist
rejects; a blacklist hit rejects even though a whitelist term matches. -/
theorem C7_rule_filter_witness :
    pass_filters exItemHello
        { whitelist := [], blacklist := ["spam"], persistent_domains := [] } = true
      ∧ pass_filters exItemHello
        { whitelist := ["nomatch"], blacklist := [], persistent_domains := [] } = false
      ∧ pass_filters exItemHello
        { whitelist := ["hello"], blacklist := ["world"], persistent_domains := [] } = false :=
  ⟨C7_rule_filter.1 exItemHello _ rfl (by decide),
   C7_rule_filter.2.1 exItemHello _ (by decide) (by decide),
   C7_rule_filter.2.2 exItemHello _ "world" (by decide) (by decide)⟩

/-- C8: the stored id is the SHA-1 hex digest of the UTF-8 bytes of
`title|link|domain` — so normalizing twice (even at different clock
instants) yields the same id, and two raw entries differing only outside
title and link (e.g. only in summary) get the same id. -/
theorem C8_identity_determinism (h u : String → String) (p : String → Option Int)
    (now1 now2 : Int) (src : String) (e1 e2 : RawEntry)
    (ht : e1.title = e2.title) (hl : e1.link = e2.link) :
    (normalize_entry h u p now1 src e1).id = (normalize_entry h u p now2 src e2).id
      ∧ (normalize_entry h u p now1 src e1).id
          = sha1_hexdigest (utf8Encode
              ((e1.title.getD "").trim ++ "|" ++ (e1.link.getD "").trim
                ++ "|" ++ domain_of src)) := by
  constructor
  · show sha1_hexdigest (utf8Encode
        ((e1.title.getD "").trim ++ "|" ++ (e1.link.getD "").trim ++ "|" ++ domain_of src))
      = sha1_hexdigest (utf8Encode
        ((e2.title.getD "").trim ++ "|" ++ (e2.link.getD "").trim ++ "|" ++ domain_of src))
    rw [ht, hl]
  · rfl

/-- Witness for C8: two raw entries that differ only in summary and
timestamp fields, normalized at different instants, share their id. -/
theorem C8_identity_determinism_witness :
    (normalize_entry id id (fun _ => none) 0 "https://example.com/feed" exEntry1).id
      = (normalize_entry id id (fun _ => none) 99 "https://example.com/feed" exEntry2).id :=
  (C8_identity_determinism id id (fun _ => none) 0 99 "https://example.com/feed"
    exEntry1 exEntry2 rfl rfl).1

/-- C9: once the streak is at or above the threshold (e.g. after the
cooldown window elapsed with no intervening success), one more recorded
failure immediately re-stamps `disabled_until = now + 24 h`: the disable
branch fires whenever the new streak is `≥ FAIL_DISABLE_AFTER`, and only a
success resets the streak. -/
theorem C9_refail_after_cooldown (fmt : Int → String) (state : HState)
    (url msg : String) (now : Int) (r : SourceRec)
    (hr : dictLookup state url = some r)
    (hcf : FAIL_DISABLE_AFTER ≤ r.consecutive_failures) :
    ∃ r1, dictLookup (update_state_on_result fmt state url false msg now) url = some r1
      ∧ r1.consecutive_failures = r.consecutive_failures + 1
      ∧ r1.disabled_until = some (fmt (now + DISABLE_DURATION)) := by
  rw [update_state_failure fmt state url msg now r hr]
  refine ⟨_, dictLookup_insert_self _ _ _, rfl, ?_⟩
  have hle : FAIL_DISABLE_AFTER ≤ r.consecutive_failures + 1 :=
    le_trans hcf (Nat.le_succ _)
  simp [hle]

/-- Witness for C9: a record whose cooldown has elapsed with streak 3 gets
disabled again by a single further failure. -/
theorem C9_refail_after_cooldown_witness :
    ∃ r1, dictLookup
        (update_state_on_result (fun t => toString t)
          [("https://b.example/feed", exRec3)] "https://b.example/feed" false "still down" 11)
        "https://b.example/feed" = some r1
      ∧ r1.consecutive_failures = exRec3.consecutive_failures + 1
      ∧ r1.disabled_until = some (toString ((11 : Int) + DISABLE_DURATION)) :=
  C9_refail_after_cooldown (fun t => toString t) [("https://b.example/feed", exRec3)]
    "https://b.example/feed" "still down" 11 exRec3 (by rfl) (by decide)

/-- C10: a stored `disabled_until` that does not parse makes
`should_skip_by_state` substitute `now`, so `now < now` fails and the
check answers (false, no reason): the source is fetched, no error is
raised. -/
theorem C10_unparseable_disabled_until (parse_date : String → Option Int)
    (state : HState) (url : String) (now : Int) (r : SourceRec) (s : String)
    (hr : dictLookup state url = some r) (hdu : r.disabled_until = some s)
    (hparse : parse_date s = none) :
    should_skip_by_state parse_date state url now = (false, none) := by
  by_cases hs : s = ""
  · simp [should_skip_by_state, hr, hdu, hs]
  · simp [should_skip_by_state, hr, hdu, hs, hparse]

/-- Witness for C10: a record with `disabled_until = "not-a-date"` under a
parser that rejects it is not skipped. -/
theorem C10_unparseable_disabled_until_witness :
    should_skip_by_state (fun _ => none)
      [("https://c.example/feed", exRecBad)] "https://c.example/feed" 7 = (false, none) :=
  C10_unparseable_disabled_until (fun _ => none)
    [("https://c.example/feed", exRecBad)] "https://c.example/feed" 7 exRecBad
    "not-a-date" (by rfl) (by rfl) (by rfl)
